import Mathlib

/-!
Shallow embedding of the CoreDump activity-tracking daemon (src/main.rs).

Instants are modelled as `Nat` (seconds since an arbitrary origin) and
`Duration` values as `Nat` seconds; `Instant::duration_since` saturates at
zero exactly as `Nat` subtraction does.  The `HashMap<String, Duration>` of
per-language accumulated times is modelled as an association list
`List (String × Nat)`; `entry(k).or_insert(ZERO) += d` becomes `addTime`.
Each `Instant::now()` call inside a method becomes an explicit `now`
argument.  Floating-point minutes (`as_secs_f64() / 60.0`) are modelled as
rationals `(seconds : ℚ) / 60`.
-/

/-- Constant from src/main.rs line 11: `CHECK_INTERVAL = 5s`. -/
def CHECK_INTERVAL : Nat := 5

/-- Constant from src/main.rs line 12: `SEND_INTERVAL = 45s`. -/
def SEND_INTERVAL : Nat := 45

/-- Constant from src/main.rs line 13: `MIN_SEND_DURATION = 30s`. -/
def MIN_SEND_DURATION : Nat := 30

/-- Constant from src/main.rs line 14: `IDLE_THRESHOLD = 60s`. -/
def IDLE_THRESHOLD : Nat := 60

/-- The `ActivityTracker` struct (src/main.rs lines 21-28). -/
structure ActivityTracker where
  language_times : List (String × Nat)
  last_activity : Nat
  last_sent : Nat
  current_language : Option String
  current_file : Option String
deriving DecidableEq

/-- Constructor `ActivityTracker::new` (lines 31-39): both instants are the
construction time, the map is empty and no identity is recorded yet. -/
def ActivityTracker.new (now : Nat) : ActivityTracker :=
  { language_times := []
    last_activity := now
    last_sent := now
    current_language := none
    current_file := none }

/-- Model of `self.language_times.entry(k).or_insert(Duration::ZERO) += d`
on the association list: add `d` to the entry of `k`, creating it with
zero (then immediately adding `d`) if absent. -/
def addTime : List (String × Nat) → String → Nat → List (String × Nat)
  | [], k, d => [(k, d)]
  | (k', v) :: rest, k, d =>
      if k' = k then (k', v + d) :: rest else (k', v) :: addTime rest k d

/-- Method `ActivityTracker::record_activity` (lines 41-67).  `now` stands
for the `Instant::now()` taken at line 42.  Returns the updated tracker
together with the `activity_changed` flag. -/
def ActivityTracker.record_activity (t : ActivityTracker) (language filename : String)
    (now : Nat) : ActivityTracker × Bool :=
  let time_since_last := now - t.last_activity
  let language_times :=
    if time_since_last < IDLE_THRESHOLD then
      match t.current_language with
      | some lang => addTime t.language_times lang time_since_last
      | none => t.language_times
    else t.language_times
  let activity_changed : Bool :=
    t.current_file != some filename || t.current_language != some language
  ({ t with
      language_times := language_times
      current_language := some language
      current_file := some filename
      last_activity := now },
    activity_changed)

/-- Method `ActivityTracker::should_send` (lines 69-71); `now` stands for
the `Instant::now()` at line 70. -/
def ActivityTracker.should_send (t : ActivityTracker) (now : Nat) : Bool :=
  decide (SEND_INTERVAL ≤ now - t.last_sent)

/-- Method `ActivityTracker::get_and_reset` (lines 73-78): set `last_sent`
to now, clone the map, clear it, and return the clone. -/
def ActivityTracker.get_and_reset (t : ActivityTracker) (now : Nat) :
    ActivityTracker × List (String × Nat) :=
  ({ t with last_sent := now, language_times := [] }, t.language_times)

/-- Model of `filename.split('.').last().unwrap_or("")` (line 161): the
longest suffix of the character sequence containing no `'.'`; this is the
whole string when no `'.'` occurs, and empty for a trailing `'.'`. -/
def extensionOf (filename : String) : String :=
  String.mk ((filename.data.reverse.takeWhile (fun c => c ≠ '.')).reverse)

/-- Function `detect_language` (lines 160-206), with the match table copied
arm by arm. -/
def detect_language (filename : String) : String :=
  let extension := extensionOf filename
  match extension with
  | "rs" => "rust"
  | "js" => "javascript"
  | "ts" => "typescript"
  | "tsx" => "typescriptreact"
  | "jsx" => "javascriptreact"
  | "py" => "python"
  | "go" => "go"
  | "java" => "java"
  | "cpp" | "cc" | "cxx" => "cpp"
  | "c" => "c"
  | "h" | "hpp" => "cpp"
  | "cs" => "csharp"
  | "rb" => "ruby"
  | "php" => "php"
  | "swift" => "swift"
  | "kt" | "kts" => "kotlin"
  | "scala" => "scala"
  | "sh" | "bash" => "bash"
  | "html" => "html"
  | "css" => "css"
  | "scss" | "sass" => "scss"
  | "json" => "json"
  | "yaml" | "yml" => "yaml"
  | "toml" => "plaintext"
  | "xml" => "plaintext"
  | "md" => "markdown"
  | "sql" => "sql"
  | "vim" => "plaintext"
  | "lua" => "lua"
  | "r" => "r"
  | "dart" => "dart"
  | "ex" | "exs" => "plaintext"
  | "erl" => "plaintext"
  | "clj" | "cljs" => "plaintext"
  | "hs" => "haskell"
  | "ml" => "plaintext"
  | "elm" => "plaintext"
  | "vue" => "plaintext"
  | "svelte" => "plaintext"
  | _ => "plaintext"

/-- Body of the flush loop's `for (language, duration) in data` (lines
348-355): the list of `(language, minutes)` pairs actually handed to
`send_activity`, in iteration order.  A pair is sent only when
`duration >= MIN_SEND_DURATION`, converted to minutes as `seconds / 60`. -/
def flushSends : List (String × Nat) → List (String × ℚ)
  | [] => []
  | p :: rest =>
      if MIN_SEND_DURATION ≤ p.2 then (p.1, (p.2 : ℚ) / 60) :: flushSends rest
      else flushSends rest

/-- One iteration of the flush loop body (lines 343-356): when
`should_send` holds, drain the tracker and compute the sends; otherwise
leave the tracker alone and send nothing. -/
def flushStep (t : ActivityTracker) (now : Nat) : ActivityTracker × List (String × ℚ) :=
  if t.should_send now then
    let r := t.get_and_reset now
    (r.1, flushSends r.2)
  else (t, [])

/-- Lookup of a language's entry in the association list modelling the
`HashMap`: `some v` when a `(key, v)` pair is present, `none` otherwise. -/
def lookupTime : List (String × Nat) → String → Option Nat
  | [], _ => none
  | (k, v) :: rest, key => if k = key then some v else lookupTime rest key

/-- Sum of all accumulated durations across languages. -/
def totalTime (m : List (String × Nat)) : Nat :=
  (m.map Prod.snd).sum

/-- Run a sequence of `record_activity` calls; each sample is a
`(language, filename, timestamp)` triple. -/
def runRecords (t : ActivityTracker) : List (String × String × Nat) → ActivityTracker
  | [] => t
  | (lang, file, now) :: rest =>
      runRecords (t.record_activity lang file now).1 rest

/-- Sum of the idle-excluded gaps (gap at or above `IDLE_THRESHOLD`) over a
sequence of `record_activity` calls starting from `t`. -/
def excludedSum (t : ActivityTracker) : List (String × String × Nat) → Nat
  | [] => 0
  | (lang, file, now) :: rest =>
      (if IDLE_THRESHOLD ≤ now - t.last_activity then now - t.last_activity else 0)
        + excludedSum (t.record_activity lang file now).1 rest

/-- Timestamp of the last sample in the list, or `d` when it is empty. -/
def lastTs (d : Nat) : List (String × String × Nat) → Nat
  | [] => d
  | (_, _, ts) :: rest => lastTs ts rest

/-- Timestamps of the samples are strictly increasing, the first strictly
above `t0`. -/
def StrictlyIncreasingFrom (t0 : Nat) : List (String × String × Nat) → Prop
  | [] => True
  | (_, _, ts) :: rest => t0 < ts ∧ StrictlyIncreasingFrom ts rest

/-- One atomic tracker operation: the `Mutex` around the shared
`ActivityTracker` (src/main.rs lines 308, 321, 343) makes every
`record_activity` and every `get_and_reset` execute without interleaving,
so a concurrent history of the two loops is a linear sequence of these. -/
inductive TrackerOp where
  | record (language filename : String) (now : Nat)
  | drain (now : Nat)
deriving DecidableEq

/-- Run a linearised history of operations; returns the final tracker and
the total duration summed over everything any drain ever returned. -/
def runOps (t : ActivityTracker) : List TrackerOp → ActivityTracker × Nat
  | [] => (t, 0)
  | .record lang file now :: rest =>
      runOps (t.record_activity lang file now).1 rest
  | .drain now :: rest =>
      let r := t.get_and_reset now
      let rec' := runOps r.1 rest
      (rec'.1, totalTime r.2 + rec'.2)

/-- The duration a single `record_activity` call adds to the accumulated
map: the gap when it is below the idle threshold and a current language
exists, zero otherwise. -/
def recContribution (t : ActivityTracker) (now : Nat) : Nat :=
  if now - t.last_activity < IDLE_THRESHOLD ∧ t.current_language.isSome then
    now - t.last_activity
  else 0

/-- Total duration contributed by all the `record_activity` calls of a
history. -/
def contribSum (t : ActivityTracker) : List TrackerOp → Nat
  | [] => 0
  | .record lang file now :: rest =>
      recContribution t now + contribSum (t.record_activity lang file now).1 rest
  | .drain now :: rest => contribSum (t.get_and_reset now).1 rest

/-- The extension-to-language table of `detect_language`, written as data:
one pair per pattern alternative, in source order. -/
def extLangTable : List (String × String) :=
  [("rs", "rust"), ("js", "javascript"), ("ts", "typescript"),
   ("tsx", "typescriptreact"), ("jsx", "javascriptreact"), ("py", "python"),
   ("go", "go"), ("java", "java"), ("cpp", "cpp"), ("cc", "cpp"),
   ("cxx", "cpp"), ("c", "c"), ("h", "cpp"), ("hpp", "cpp"),
   ("cs", "csharp"), ("rb", "ruby"), ("php", "php"), ("swift", "swift"),
   ("kt", "kotlin"), ("kts", "kotlin"), ("scala", "scala"), ("sh", "bash"),
   ("bash", "bash"), ("html", "html"), ("css", "css"), ("scss", "scss"),
   ("sass", "scss"), ("json", "json"), ("yaml", "yaml"), ("yml", "yaml"),
   ("toml", "plaintext"), ("xml", "plaintext"), ("md", "markdown"),
   ("sql", "sql"), ("vim", "plaintext"), ("lua", "lua"), ("r", "r"),
   ("dart", "dart"), ("ex", "plaintext"), ("exs", "plaintext"),
   ("erl", "plaintext"), ("clj", "plaintext"), ("cljs", "plaintext"),
   ("hs", "haskell"), ("ml", "plaintext"), ("elm", "plaintext"),
   ("vue", "plaintext"), ("svelte", "plaintext")]

/-- First-match lookup in an extension table. -/
def lookupTable : List (String × String) → String → Option String
  | [], _ => none
  | (k, v) :: rest, ext => if k = ext then some v else lookupTable rest ext

/-- Classifier stated in the spec's words, as amended: extract the
substring after the last dot — taking the whole name when no dot occurs —
look it up in the fixed table, and fall back to plaintext for an unmatched
or empty extension. -/
def classifyTableSpec (file_name : String) : String :=
  (lookupTable extLangTable (extensionOf file_name)).getD "plaintext"

example :
    (ActivityTracker.record_activity (ActivityTracker.new 0) "rust" "a.rs" 10).1.language_times
      = [] := by decide

theorem totalTime_nil : totalTime [] = 0 := rfl

theorem totalTime_addTime (m : List (String × Nat)) (k : String) (d : Nat) :
    totalTime (addTime m k d) = totalTime m + d := by
  induction m with
  | nil => simp [addTime, totalTime]
  | cons p rest ih =>
      obtain ⟨k', v⟩ := p
      by_cases h : k' = k
      · simp [addTime, h, totalTime]
        omega
      · simp only [addTime, if_neg h, totalTime, List.map_cons, List.sum_cons] at *
        omega

theorem lookupTime_addTime_self (m : List (String × Nat)) (k : String) (d : Nat) :
    lookupTime (addTime m k d) k = some ((lookupTime m k).getD 0 + d) := by
  induction m with
  | nil => simp [addTime, lookupTime]
  | cons p rest ih =>
      obtain ⟨k', v⟩ := p
      by_cases h : k' = k
      · subst h
        simp [addTime, lookupTime]
      · simp [addTime, lookupTime, h, ih]

theorem lookupTime_addTime_ne (m : List (String × Nat)) (k key : String) (d : Nat)
    (h : key ≠ k) :
    lookupTime (addTime m k d) key = lookupTime m key := by
  induction m with
  | nil =>
      simp only [addTime, lookupTime]
      rw [if_neg (fun hk => h hk.symm)]
  | cons p rest ih =>
      obtain ⟨k', v⟩ := p
      by_cases hk : k' = k
      · subst hk
        simp only [addTime, if_pos rfl, lookupTime]
        rw [if_neg (fun hk => h hk.symm), if_neg (fun hk => h hk.symm)]
      · simp only [addTime, if_neg hk, lookupTime]
        by_cases hkey : k' = key
        · simp [hkey]
        · simp [hkey, ih]

theorem le_lastTs (t0 : Nat) (ss : List (String × String × Nat))
    (h : StrictlyIncreasingFrom t0 ss) : t0 ≤ lastTs t0 ss := by
  induction ss generalizing t0 with
  | nil => simp [lastTs]
  | cons s rest ih =>
      obtain ⟨l, f, ts⟩ := s
      obtain ⟨h1, h2⟩ := h
      exact le_trans (le_of_lt h1) (ih ts h2)

theorem record_activity_last_activity (t : ActivityTracker) (lang file : String) (now : Nat) :
    (t.record_activity lang file now).1.last_activity = now := rfl

theorem record_activity_current_language (t : ActivityTracker) (lang file : String)
    (now : Nat) :
    (t.record_activity lang file now).1.current_language = some lang := rfl

theorem record_activity_times_accum (t : ActivityTracker) (lang file l0 : String)
    (now : Nat) (hl0 : t.current_language = some l0)
    (hlt : now - t.last_activity < IDLE_THRESHOLD) :
    (t.record_activity lang file now).1.language_times
      = addTime t.language_times l0 (now - t.last_activity) := by
  simp [ActivityTracker.record_activity, hl0, hlt]

theorem record_activity_times_idle (t : ActivityTracker) (lang file : String)
    (now : Nat) (hge : ¬ now - t.last_activity < IDLE_THRESHOLD) :
    (t.record_activity lang file now).1.language_times = t.language_times := by
  simp [ActivityTracker.record_activity, hge]

theorem record_activity_times_first (t : ActivityTracker) (lang file : String)
    (now : Nat) (hnone : t.current_language = none) :
    (t.record_activity lang file now).1.language_times = t.language_times := by
  by_cases hlt : now - t.last_activity < IDLE_THRESHOLD
  · simp [ActivityTracker.record_activity, hnone, hlt]
  · simp [ActivityTracker.record_activity, hlt]

theorem runRecords_total (ss : List (String × String × Nat)) (t : ActivityTracker)
    (hlang : t.current_language.isSome)
    (hinc : StrictlyIncreasingFrom t.last_activity ss) :
    totalTime (runRecords t ss).language_times + excludedSum t ss
      = totalTime t.language_times + (lastTs t.last_activity ss - t.last_activity) := by
  induction ss generalizing t with
  | nil => simp [runRecords, excludedSum, lastTs]
  | cons s rest ih =>
      obtain ⟨lang, file, now⟩ := s
      obtain ⟨h1, h2⟩ := hinc
      obtain ⟨l0, hl0⟩ := Option.isSome_iff_exists.mp hlang
      have hla := record_activity_last_activity t lang file now
      have hsome : (t.record_activity lang file now).1.current_language.isSome := by
        rw [record_activity_current_language]
        rfl
      have key := ih (t.record_activity lang file now).1 hsome (by rw [hla]; exact h2)
      rw [hla] at key
      have hL := le_lastTs now rest h2
      simp only [runRecords, excludedSum, lastTs]
      by_cases hlt : now - t.last_activity < IDLE_THRESHOLD
      · rw [record_activity_times_accum t lang file l0 now hl0 hlt, totalTime_addTime] at key
        rw [if_neg (by omega : ¬ IDLE_THRESHOLD ≤ now - t.last_activity)]
        omega
      · rw [record_activity_times_idle t lang file now hlt] at key
        rw [if_pos (by omega : IDLE_THRESHOLD ≤ now - t.last_activity)]
        omega

example : detect_language "a.rs" = "rust" := by decide

example : detect_language "x.y.cpp" = "cpp" := by decide

example : detect_language "README" = "plaintext" := by decide

example : detect_language "a." = "plaintext" := by decide

/-- C1: for every sequence of `record_activity` calls with strictly
increasing timestamps, starting from a fresh tracker, the sum of all
accumulated per-language durations plus the sum of all excluded (idle,
gap at or above the threshold) inter-call gaps equals the total elapsed
time from the first call's timestamp to the last call's timestamp. -/
theorem record_time_conservation (startAt ts0 : Nat) (l0 f0 : String)
    (rest : List (String × String × Nat))
    (hinc : StrictlyIncreasingFrom ts0 rest) :
    totalTime (runRecords (ActivityTracker.new startAt)
        ((l0, f0, ts0) :: rest)).language_times
      + excludedSum ((ActivityTracker.new startAt).record_activity l0 f0 ts0).1 rest
      = lastTs ts0 rest - ts0 := by
  have hfirst :
      ((ActivityTracker.new startAt).record_activity l0 f0 ts0).1.language_times = [] :=
    record_activity_times_first _ l0 f0 ts0 rfl
  have hla := record_activity_last_activity (ActivityTracker.new startAt) l0 f0 ts0
  have hsome :
      ((ActivityTracker.new startAt).record_activity l0 f0 ts0).1.current_language.isSome := by
    rw [record_activity_current_language]
    rfl
  have key := runRecords_total rest ((ActivityTracker.new startAt).record_activity l0 f0 ts0).1
    hsome (by rw [hla]; exact hinc)
  rw [hla, hfirst] at key
  simpa [runRecords, totalTime] using key

/-- Witness for C1 at a concrete run: samples at times 5, 15 and 100; the
gap of 10 is accumulated, the gap of 85 is excluded, and 10 + 85 = 100 - 5. -/
theorem record_time_conservation_witness :
    StrictlyIncreasingFrom 5 [("python", "b.py", 15), ("go", "c.go", 100)]
    ∧ totalTime (runRecords (ActivityTracker.new 0)
          [("rust", "a.rs", 5), ("python", "b.py", 15), ("go", "c.go", 100)]).language_times
        + excludedSum ((ActivityTracker.new 0).record_activity "rust" "a.rs" 5).1
            [("python", "b.py", 15), ("go", "c.go", 100)]
        = lastTs 5 [("python", "b.py", 15), ("go", "c.go", 100)] - 5 :=
  ⟨by simp [StrictlyIncreasingFrom],
   record_time_conservation 0 5 "rust" "a.rs" _ (by simp [StrictlyIncreasingFrom])⟩

/-- C3: a `record_activity` call whose gap is below the idle threshold adds
the gap to the accumulated duration of the language that was current before
the call (creating the entry from zero if absent) and to no other language;
when no language was current (first ever sample), nothing is accumulated. -/
theorem record_attributes_gap_to_prior_language (t : ActivityTracker)
    (lang file : String) (now : Nat)
    (h : now - t.last_activity < IDLE_THRESHOLD) :
    (∀ l0, t.current_language = some l0 →
      lookupTime (t.record_activity lang file now).1.language_times l0
          = some ((lookupTime t.language_times l0).getD 0 + (now - t.last_activity))
        ∧ ∀ k, k ≠ l0 →
            lookupTime (t.record_activity lang file now).1.language_times k
              = lookupTime t.language_times k)
    ∧ (t.current_language = none →
        (t.record_activity lang file now).1.language_times = t.language_times) := by
  constructor
  · intro l0 hl0
    have hts := record_activity_times_accum t lang file l0 now hl0 h
    exact ⟨by rw [hts, lookupTime_addTime_self],
      fun k hk => by rw [hts, lookupTime_addTime_ne _ _ _ _ hk]⟩
  · intro h0
    exact record_activity_times_first t lang file now h0

/-- Witness for C3: the prior language is rust and the new sample is
python; the 30-second gap lands on rust, and python gets no entry. -/
theorem record_attributes_gap_witness :
    lookupTime ((ActivityTracker.record_activity
        { language_times := [("rust", 7)], last_activity := 100, last_sent := 0,
          current_language := some "rust", current_file := some "a.rs" }
        "python" "b.py" 130).1.language_times) "rust" = some 37
    ∧ lookupTime ((ActivityTracker.record_activity
        { language_times := [("rust", 7)], last_activity := 100, last_sent := 0,
          current_language := some "rust", current_file := some "a.rs" }
        "python" "b.py" 130).1.language_times) "python" = none := by
  have h := (record_attributes_gap_to_prior_language
      { language_times := [("rust", 7)], last_activity := 100, last_sent := 0,
        current_language := some "rust", current_file := some "a.rs" }
      "python" "b.py" 130 (by decide)).1 "rust" rfl
  constructor
  · rw [h.1]
    decide
  · rw [h.2 "python" (by decide)]
    decide

/-- C4: a `record_activity` call whose gap is at or above the idle
threshold (in particular exactly at it) accumulates nothing, and
`last_activity` still advances to the call's timestamp. -/
theorem idle_boundary_excluded (t : ActivityTracker) (lang file : String) (now : Nat)
    (h : IDLE_THRESHOLD ≤ now - t.last_activity) :
    (t.record_activity lang file now).1.language_times = t.language_times
    ∧ (t.record_activity lang file now).1.last_activity = now :=
  ⟨record_activity_times_idle t lang file now (by omega),
   record_activity_last_activity t lang file now⟩

/-- Witness for C4 exactly at the boundary: gap 60 = IDLE_THRESHOLD is
excluded even though an accumulation target exists, and time advances. -/
theorem idle_boundary_excluded_witness :
    IDLE_THRESHOLD ≤ 80 - (20 : Nat)
    ∧ ((ActivityTracker.record_activity
          { language_times := [("rust", 7)], last_activity := 20, last_sent := 0,
            current_language := some "rust", current_file := some "a.rs" }
          "rust" "a.rs" 80).1.language_times
        = [("rust", 7)]
      ∧ ((ActivityTracker.record_activity
          { language_times := [("rust", 7)], last_activity := 20, last_sent := 0,
            current_language := some "rust", current_file := some "a.rs" }
          "rust" "a.rs" 80).1.last_activity = 80)) :=
  ⟨by decide,
   idle_boundary_excluded
     { language_times := [("rust", 7)], last_activity := 20, last_sent := 0,
       current_language := some "rust", current_file := some "a.rs" }
     "rust" "a.rs" 80 (by decide)⟩

/-- C5: `get_and_reset` returns the accumulated map as it stood, leaves
the map empty, sets `last_sent` to now, and a second immediate drain
returns the empty mapping. -/
theorem drain_returns_copy_and_clears (t : ActivityTracker) (now now' : Nat) :
    (t.get_and_reset now).2 = t.language_times
    ∧ (t.get_and_reset now).1.language_times = []
    ∧ (t.get_and_reset now).1.last_sent = now
    ∧ ((t.get_and_reset now).1.get_and_reset now').2 = [] :=
  ⟨rfl, rfl, rfl, rfl⟩

/-- C2: the mutex makes every `record_activity` and every `get_and_reset`
execute atomically, so any concurrent history of the poll loop and the
flush loop linearises to a sequence of whole operations; along every such
history, every record call's accumulated contribution is reflected exactly
once — either in some drain's returned copy or in the tracker's residual
accumulation — never split, lost, or double-applied across a drain. -/
theorem linearised_drain_no_loss (ops : List TrackerOp) (t : ActivityTracker) :
    totalTime (runOps t ops).1.language_times + (runOps t ops).2
      = totalTime t.language_times + contribSum t ops := by
  induction ops generalizing t with
  | nil => simp [runOps, contribSum]
  | cons op rest ih =>
      cases op with
      | record lang file now =>
          have hrec : totalTime (t.record_activity lang file now).1.language_times
              = totalTime t.language_times + recContribution t now := by
            rcases hcl : t.current_language with _ | l0
            · rw [record_activity_times_first t lang file now hcl]
              simp [recContribution, hcl]
            · by_cases hlt : now - t.last_activity < IDLE_THRESHOLD
              · rw [record_activity_times_accum t lang file l0 now hcl hlt,
                  totalTime_addTime]
                simp [recContribution, hlt, hcl]
              · rw [record_activity_times_idle t lang file now hlt]
                simp [recContribution, hlt]
          have key := ih (t.record_activity lang file now).1
          simp only [runOps, contribSum]
          omega
      | drain now =>
          have key := ih (t.get_and_reset now).1
          have h1 : totalTime (t.get_and_reset now).1.language_times = 0 := rfl
          have h2 : (t.get_and_reset now).2 = t.language_times := rfl
          simp only [runOps, contribSum]
          rw [h2]
          omega

/-- C6 counterexample: the file name `rs` contains no dot, yet the
classifier maps it to `rust`, not to the default `plaintext` as the claim
states for dotless names. -/
theorem detect_language_no_dot_counterexample :
    (¬ '.' ∈ "rs".data) ∧ detect_language "rs" = "rust"
      ∧ detect_language "rs" ≠ "plaintext" :=
  ⟨by decide, by decide, by decide⟩

set_option maxHeartbeats 1000000 in
/-- C6 amended: the classifier is a pure total function: it extracts the
substring after the last dot — taking the whole file name when it contains
no dot — looks it up in the fixed extension-to-language table, and maps
any unmatched or empty extension to the default plaintext identifier. -/
theorem detect_language_eq_table_spec (f : String) :
    detect_language f = classifyTableSpec f := by
  simp only [detect_language, classifyTableSpec]
  generalize extensionOf f = ext
  split <;> first
    | decide
    | simp_all [lookupTable, extLangTable, eq_comm]

/-- C7: `record_activity` reports a change exactly when the new sample's
file name or language differs by value from the stored identity, and a
second sample identical to the one just recorded reports no change. -/
theorem changed_iff_identity_differs (t : ActivityTracker) (lang file : String)
    (now now' : Nat) :
    ((t.record_activity lang file now).2 = true
      ↔ (t.current_file ≠ some file ∨ t.current_language ≠ some lang))
    ∧ ((t.record_activity lang file now).1.record_activity lang file now').2 = false := by
  constructor
  · simp [ActivityTracker.record_activity]
  · simp [ActivityTracker.record_activity]

/-- C8: the flush loop sends exactly the drained pairs whose duration is
at or above `MIN_SEND_DURATION`, each converted to minutes as seconds
divided by sixty; pairs below the minimum are silently discarded, and a
flush tick that drains sends the filter of the drained snapshot. -/
theorem flush_sends_iff_min_duration (data : List (String × Nat))
    (t : ActivityTracker) (now : Nat) :
    flushSends data
      = (data.filter (fun p => MIN_SEND_DURATION ≤ p.2)).map
          (fun p => (p.1, (p.2 : ℚ) / 60))
    ∧ (flushStep t now).2
      = (if t.should_send now = true then flushSends t.language_times else []) := by
  constructor
  · induction data with
    | nil => rfl
    | cons p rest ih =>
        by_cases h : MIN_SEND_DURATION ≤ p.2 <;>
          simp [flushSends, List.filter_cons, h, ih]
  · by_cases h : t.should_send now = true <;> simp [flushStep, h] <;> rfl

/-- C9: `should_send` is a pure query holding exactly when the time since
`last_sent` has reached `SEND_INTERVAL`; immediately after a drain at
time `s` it is false and stays false until the interval has elapsed
again. -/
theorem should_send_iff_interval (t : ActivityTracker) (now s now' : Nat) :
    (t.should_send now = true ↔ SEND_INTERVAL ≤ now - t.last_sent)
    ∧ (now' - s < SEND_INTERVAL → (t.get_and_reset s).1.should_send now' = false)
    ∧ (SEND_INTERVAL ≤ now' - s → (t.get_and_reset s).1.should_send now' = true) := by
  refine ⟨by simp [ActivityTracker.should_send], ?_, ?_⟩
  · intro h
    simp only [ActivityTracker.should_send, ActivityTracker.get_and_reset]
    simpa using by omega
  · intro h
    simp only [ActivityTracker.should_send, ActivityTracker.get_and_reset]
    simpa using h

/-- Witness for C9: draining at time 100 makes `should_send` false at
time 120 (20 seconds later) and true at time 145 (45 seconds later). -/
theorem should_send_iff_interval_witness :
    ((ActivityTracker.new 0).get_and_reset 100).1.should_send 120 = false
    ∧ ((ActivityTracker.new 0).get_and_reset 100).1.should_send 145 = true :=
  ⟨(should_send_iff_interval (ActivityTracker.new 0) 0 100 120).2.1 (by decide),
   (should_send_iff_interval (ActivityTracker.new 0) 0 100 145).2.2 (by decide)⟩

/-- C10: frame conditions — `record_activity` never touches `last_sent`,
and `get_and_reset` never touches `last_activity`, `current_language` or
`current_file`, so a drain does not reset idle tracking and the interval
spanning a drain boundary is still attributed by the next record call. -/
theorem record_drain_frame (t : ActivityTracker) (lang file : String) (now s : Nat) :
    (t.record_activity lang file now).1.last_sent = t.last_sent
    ∧ (t.get_and_reset s).1.last_activity = t.last_activity
    ∧ (t.get_and_reset s).1.current_language = t.current_language
    ∧ (t.get_and_reset s).1.current_file = t.current_file
    ∧ ((t.get_and_reset s).1.record_activity lang file now).1.last_activity
      = (t.record_activity lang file now).1.last_activity
    ∧ ((t.get_and_reset s).1.record_activity lang file now).2
      = (t.record_activity lang file now).2 :=
  ⟨rfl, rfl, rfl, rfl, rfl, rfl⟩
